import Mathlib

/-!
Verification of the YouTube acquisition subsystem (backend/app/services/downloader.py,
backend/app/services/url_extractor.py, backend/app/services/agentgo_service.py,
backend/app/models.py) against its natural-language specification.

The Python code is shallowly embedded: pure helpers become Lean functions, the
download orchestration loop becomes a recursive function over the scripted
attempt outcomes, and the stateful ProxyRotator becomes explicit state passing.
Wall-clock times (attempt durations in log strings) are not modelled; `time.time()`
is passed in explicitly as the query instant where the code reads it.
-/

/-- Python substring test `needle in haystack` on explicit character lists:
true when some suffix of the haystack has the needle as a prefix. -/
def containsSub (needle : List Char) : List Char → Bool
  | [] => needle.isEmpty
  | c :: rest => needle.isPrefixOf (c :: rest) || containsSub needle rest

/-- Python `needle in hay` for strings. -/
def strContains (hay needle : String) : Bool :=
  containsSub needle.data hay.data

/-- Python `str.lower()`: character-wise lowercasing. -/
def lowerStr (s : String) : String :=
  String.mk (s.data.map Char.toLower)

/-- Python `s.startswith(pre)`. -/
def strStartsWith (s pre : String) : Bool :=
  pre.data.isPrefixOf s.data

/-- Python `max(x :: xs, key = k)` where `gt a b` decides `k a > k b`:
the leftmost element with maximal key (`max` only replaces the running
best on a strictly greater key). Returns `none` on the empty list, where
Python raises. -/
def pymax {α : Type} (gt : α → α → Bool) : List α → Option α
  | [] => none
  | x :: xs => some (xs.foldl (fun best y => if gt y best then y else best) x)

/-- Python truthiness of an optional integer field (`None` and `0` are falsy). -/
def pyTruthyNat (h : Option Nat) : Bool :=
  h.getD 0 != 0

/-- Python truthiness of an optional string field (`None` and `""` are falsy). -/
def pyTruthyStr (s : Option String) : Bool :=
  s.getD "" != ""

/-- Python `s or d` for an optional string `s`: `d` when `s` is `None` or empty. -/
def pyOr (s : Option String) (d : String) : String :=
  if s.getD "" = "" then d else s.getD ""

/-- Decimal digit value of a character, `none` for non-digits. -/
def charDigit (c : Char) : Option Nat :=
  let n := c.toNat
  if 48 ≤ n && n ≤ 57 then some (n - 48) else none

/-- Python `int(s)` on plain non-empty decimal-digit strings, `none` where
`int` raises `ValueError` (signs, whitespace and non-ASCII digits are outside
the domain this subsystem passes to `int`). -/
def pyParseNat (s : String) : Option Nat :=
  match s.data with
  | [] => none
  | cs =>
    cs.foldl (fun acc c =>
      match acc, charDigit c with
      | some n, some d => some (10 * n + d)
      | _, _ => none) (some 0)

-- Basic facts about the helpers, used throughout.

theorem isPrefixOf_append_self (pre l : List Char) :
    pre.isPrefixOf (pre ++ l) = true := by
  induction pre with
  | nil => simp [List.isPrefixOf]
  | cons c cs ih => simp [List.isPrefixOf, ih]

theorem containsSub_of_isPrefixOf (needle hay : List Char)
    (h : needle.isPrefixOf hay = true) : containsSub needle hay = true := by
  cases hay with
  | nil =>
    cases needle with
    | nil => rfl
    | cons c cs => simp [List.isPrefixOf] at h
  | cons c rest => simp [containsSub, h]

theorem containsSub_append_left (needle pre hay : List Char)
    (h : containsSub needle hay = true) :
    containsSub needle (pre ++ hay) = true := by
  induction pre with
  | nil => simpa using h
  | cons c cs ih => simp [containsSub, ih]

theorem isPrefixOf_map (f : Char → Char) (n h : List Char)
    (hp : n.isPrefixOf h = true) : (n.map f).isPrefixOf (h.map f) = true := by
  induction n generalizing h with
  | nil => simp [List.isPrefixOf]
  | cons c cs ih =>
    cases h with
    | nil => simp [List.isPrefixOf] at hp
    | cons d ds =>
      simp only [List.isPrefixOf, Bool.and_eq_true, beq_iff_eq] at hp
      obtain ⟨rfl, hp2⟩ := hp
      simpa [List.isPrefixOf] using ih ds hp2

theorem containsSub_map (f : Char → Char) (n h : List Char)
    (hc : containsSub n h = true) : containsSub (n.map f) (h.map f) = true := by
  induction h with
  | nil =>
    simp [containsSub] at hc
    simp [containsSub, hc]
  | cons c rest ih =>
    simp only [containsSub, Bool.or_eq_true] at hc
    rcases hc with hp | hc
    · exact containsSub_of_isPrefixOf _ _ (isPrefixOf_map f _ _ hp)
    · simp [containsSub, ih hc]

theorem data_append (a b : String) : (a ++ b).data = a.data ++ b.data := by
  cases a; cases b; rfl

theorem lowerStr_append (a b : String) :
    lowerStr (a ++ b) = lowerStr a ++ lowerStr b := by
  cases a with
  | mk da =>
    cases b with
    | mk db =>
      simp only [lowerStr, data_append, List.map_append]
      rfl

/-- A case-insensitive hit in a message survives prepending text to the message. -/
theorem strContains_lower_append (pre m kw : String)
    (h : strContains (lowerStr m) kw = true) :
    strContains (lowerStr (pre ++ m)) kw = true := by
  unfold strContains at *
  rw [lowerStr_append, data_append]
  exact containsSub_append_left _ _ _ h

/-- Containment of a case-variant needle gives containment of the lowercase
needle in the lowercased message. -/
theorem strContains_lower_of_variant (msg v kw : String)
    (hv : strContains msg v = true) (hl : lowerStr v = kw) :
    strContains (lowerStr msg) kw = true := by
  unfold strContains at *
  subst hl
  exact containsSub_map Char.toLower _ _ hv

namespace Downloader

/-- The downloader's bot-detection vocabulary
(backend/app/services/downloader.py, `is_bot_detection_error`). -/
def bot_keywords : List String :=
  ["sign in to confirm",
   "not a bot",
   "confirm you\x27re not a bot",
   "verify you are human",
   "captcha",
   "unusual traffic",
   "automated queries",
   "too many requests",
   "rate limit exceeded",
   "please try again later",
   "failed to extract any player response",
   "unable to extract",
   "sign in to confirm your age"]

/-- `is_bot_detection_error` from downloader.py: case-insensitive containment
of any keyword of the fixed vocabulary. -/
def is_bot_detection_error (error_msg : String) : Bool :=
  bot_keywords.any (fun keyword => strContains (lowerStr error_msg) keyword)

end Downloader

namespace UrlExtractor

/-- The URL extractor's bot-detection vocabulary
(backend/app/services/url_extractor.py, `is_bot_detection_error`); the same
list as the downloader's plus the bare "403" indicator. -/
def bot_keywords : List String :=
  Downloader.bot_keywords ++ ["403"]

/-- `is_bot_detection_error` from url_extractor.py. -/
def is_bot_detection_error (error_msg : String) : Bool :=
  bot_keywords.any (fun keyword => strContains (lowerStr error_msg) keyword)

end UrlExtractor

namespace Downloader

/-- Mutable state of `ProxyRotator` (downloader.py): the fixed pool, the
round-robin cursor, and the failed set (kept as a duplicate-free list). -/
structure ProxyRotator where
  proxies : List String
  current_index : Nat
  failed_proxies : List String
deriving Repr, DecidableEq

/-- `ProxyRotator.__init__`: empty failed set, cursor at 0. -/
def ProxyRotator.init (proxies : List String) : ProxyRotator :=
  { proxies := proxies, current_index := 0, failed_proxies := [] }

/-- `ProxyRotator.get_random`, parametrised by the random choice function
(`random.choice` picks some element of a non-empty list). Returns the chosen
proxy and the updated state: when every pool member is failed, the failed set
is cleared and the choice is made over the whole pool. -/
def ProxyRotator.get_random (choice : List String → String) (st : ProxyRotator) :
    Option String × ProxyRotator :=
  let available := st.proxies.filter (fun p => !(st.failed_proxies.contains p))
  if available.isEmpty then
    let st1 := { st with failed_proxies := [] }
    if st.proxies.isEmpty then (none, st1)
    else (some (choice st.proxies), st1)
  else (some (choice available), st)

/-- `ProxyRotator.get_next`: plain round-robin over the pool, ignoring the
failed set. On reachable states the cursor is within bounds whenever the pool
is non-empty (it is initialised to 0 and always reduced modulo the length). -/
def ProxyRotator.get_next (st : ProxyRotator) : Option String × ProxyRotator :=
  if st.proxies.isEmpty then (none, st)
  else
    let proxy := st.proxies.getD st.current_index ""
    (some proxy,
     { st with current_index := (st.current_index + 1) % st.proxies.length })

/-- `ProxyRotator.mark_failed`: add to the failed set when the proxy string is
truthy (non-empty). -/
def ProxyRotator.mark_failed (proxy : String) (st : ProxyRotator) : ProxyRotator :=
  if proxy ≠ "" then { st with failed_proxies := st.failed_proxies.insert proxy }
  else st

/-- `ProxyRotator.mark_success`: remove from the failed set. -/
def ProxyRotator.mark_success (proxy : String) (st : ProxyRotator) : ProxyRotator :=
  { st with failed_proxies := st.failed_proxies.erase proxy }

/-- The inline hard IP-block vocabulary of `YouTubeDownloader.download`
(`if any(keyword in error_str for keyword in [...])`). -/
def hard_block_keywords : List String :=
  ["403", "blocked", "bot", "captcha", "rate limit"]

/-- The inline hard IP-block classification in `YouTubeDownloader.download`:
lowercased containment of one of the five keywords. -/
def is_hard_block (msg : String) : Bool :=
  hard_block_keywords.any (fun keyword => strContains (lowerStr msg) keyword)

/-- The strategy numbers tried per proxy in `YouTubeDownloader.download`. -/
def strategies : List Nat := [1, 2, 3, 4]

/-- The wrapped message appended to `errors` on a failed attempt
(`f"Strategy ... with proxy ... failed after ...s: ..."`). The wall-clock
elapsed-seconds figure is not modelled; everything before the raw message is
an attempt-specific prefix and the raw message is its suffix. -/
def wrapError (strategy : Nat) (proxy : Option String) (msg : String) : String :=
  "Strategy " ++ toString strategy ++ " with proxy " ++ pyOr proxy "direct" ++
    " failed: " ++ msg

/-- The loop-carried state of `YouTubeDownloader.download`: the rotator's
failed set, the accumulated error strings, and (for specification purposes)
the trace of attempted (proxy, strategy) pairs in order. -/
structure LoopState where
  failed_proxies : List String
  errors : List String
  trace : List (Option String × Nat)
deriving Repr, DecidableEq

/-- The inner `for strategy in [1, 2, 3, 4]` loop of `download` on one proxy.
`attempt proxy strategy` scripts the outcome of `_download_with_strategy`:
`none` is success, `some msg` a failure with message `msg`. On success the
proxy is marked successful and the whole download returns (second component
`true`). On a failure classified as a hard IP block the proxy is marked
failed and the remaining strategies are abandoned. -/
def tryProxy (attempt : Option String → Nat → Option String) (proxy : Option String) :
    List Nat → LoopState → LoopState × Bool
  | [], st => (st, false)
  | s :: rest, st =>
    let st1 := { st with trace := st.trace ++ [(proxy, s)] }
    match attempt proxy s with
    | none =>
      match proxy with
      | some p => ({ st1 with failed_proxies := st1.failed_proxies.erase p }, true)
      | none => (st1, true)
    | some e =>
      let st2 := { st1 with errors := st1.errors ++ [wrapError s proxy e] }
      if is_hard_block e then
        match proxy with
        | some p =>
          ({ st2 with failed_proxies := st2.failed_proxies.insert p }, false)
        | none => (st2, false)
      else
        tryProxy attempt proxy rest st2

/-- The outer `for proxy_idx, proxy in enumerate(proxies_to_try)` loop of
`download`: each proxy is given the full strategy list until one attempt
succeeds. -/
def runLoop (attempt : Option String → Nat → Option String) :
    List (Option String) → LoopState → LoopState × Bool
  | [], st => (st, false)
  | p :: rest, st =>
    let r := tryProxy attempt p strategies st
    if r.2 then r else runLoop attempt rest r.1

/-- Outcome of one `YouTubeDownloader.download` call, with the number of
`CredentialProvider` refresh calls (`get_youtube_authentication_bundle`
with `force_refresh=True`) recorded. -/
structure DownloadOutcome where
  success : Bool
  final : LoopState
  bot_detection : Bool
  refreshCalls : Nat
deriving Repr, DecidableEq

/-- The retry loop of `_try_agentgo_fallback` after a successful refresh:
first two proxies, strategies 1 and 3, `retryAttempt` scripting success. -/
def fallbackRetry (retryAttempt : Option String → Nat → Bool)
    (proxies : List (Option String)) : Bool :=
  (proxies.take 2).any (fun p => [1, 3].any (fun s => retryAttempt p s))

/-- `YouTubeDownloader.download` (downloader.py): the proxy-by-strategy loop,
then — only when every combination failed and some recorded error message is
classified as bot detection — a single `_try_agentgo_fallback` escalation.
Inside the fallback the credential refresh is invoked exactly once, after the
`is_configured` guard and before its result is inspected; `refreshOk` scripts
whether it returns a usable bundle. -/
def download (attempt : Option String → Nat → Option String)
    (configured refreshOk : Bool)
    (retryAttempt : Option String → Nat → Bool)
    (proxies : List (Option String)) : DownloadOutcome :=
  let r := runLoop attempt proxies { failed_proxies := [], errors := [], trace := [] }
  if r.2 then
    { success := true, final := r.1, bot_detection := false, refreshCalls := 0 }
  else
    let bot := r.1.errors.any is_bot_detection_error
    if bot then
      if configured then
        if refreshOk then
          { success := fallbackRetry retryAttempt proxies, final := r.1,
            bot_detection := bot, refreshCalls := 1 }
        else
          { success := false, final := r.1, bot_detection := bot, refreshCalls := 1 }
      else
        { success := false, final := r.1, bot_detection := bot, refreshCalls := 0 }
    else
      { success := false, final := r.1, bot_detection := bot, refreshCalls := 0 }

end Downloader

namespace UrlExtractor

/-- One entry of `ExtractedVideo._formats` (url_extractor.py, `VideoFormat`).
`none` in an `Option` field models Python `None`; `vcodec`/`acodec` default to
the string "none" in the source when the key is missing. Bitrates (`tbr`) are
modelled as naturals: the source's floats are only ever compared. -/
structure VideoFormat where
  format_id : String
  url : String
  ext : String
  height : Option Nat
  vcodec : Option String
  acodec : Option String
  tbr : Option Nat
  protocol : String
deriving Repr, DecidableEq

/-- `VideoFormat.is_video`: `vcodec != 'none' and vcodec is not None`. -/
def VideoFormat.is_video (f : VideoFormat) : Bool :=
  match f.vcodec with
  | none => false
  | some v => v != "none"

/-- `VideoFormat.is_audio`: `acodec != 'none' and acodec is not None`. -/
def VideoFormat.is_audio (f : VideoFormat) : Bool :=
  match f.acodec with
  | none => false
  | some a => a != "none"

/-- `VideoFormat.is_video_only`. -/
def VideoFormat.is_video_only (f : VideoFormat) : Bool :=
  f.is_video && !f.is_audio

/-- `VideoFormat.is_audio_only`. -/
def VideoFormat.is_audio_only (f : VideoFormat) : Bool :=
  f.is_audio && !f.is_video

/-- `VideoFormat.has_both`. -/
def VideoFormat.has_both (f : VideoFormat) : Bool :=
  f.is_video && f.is_audio

/-- `VideoFormat.is_direct_download`: https protocol, truthy URL, and the URL
points at googlevideo.com. -/
def VideoFormat.is_direct_download (f : VideoFormat) : Bool :=
  f.protocol == "https" && f.url != "" && strContains f.url "googlevideo.com"

/-- The selection result dictionary of `ExtractedVideo.get_download_urls`.
The `video_format`/`audio_format` entries hold the chosen `VideoFormat`
(serialised with `to_dict()` in the source). -/
structure DownloadUrls where
  video_url : Option String
  audio_url : Option String
  video_format : Option VideoFormat
  audio_format : Option VideoFormat
  needs_merge : Bool
  resolution : String
deriving Repr, DecidableEq

/-- The local `is_mp4_format` helper of `get_download_urls`:
`f.ext in ('mp4', 'm4a') or (f.vcodec and 'avc' in f.vcodec.lower())`. -/
def is_mp4_format (f : VideoFormat) : Bool :=
  (f.ext == "mp4" || f.ext == "m4a") ||
    (pyTruthyStr f.vcodec && strContains (lowerStr (f.vcodec.getD "")) "avc")

/-- The sort key of the local `format_sort_key` helper:
the tuple (mp4 preference, height or 0, bitrate or 0). -/
def format_sort_key (prefer_mp4 : Bool) (f : VideoFormat) : Nat × Nat × Nat :=
  ((if prefer_mp4 && is_mp4_format f then 1 else 0), f.height.getD 0, f.tbr.getD 0)

/-- Strict lexicographic greater-than on the sort-key triples, as Python
compares tuples. -/
def tripleGt : Nat × Nat × Nat → Nat × Nat × Nat → Bool
  | (a1, a2, a3), (b1, b2, b3) =>
    b1 < a1 || (a1 == b1 && (b2 < a2 || (a2 == b2 && b3 < a3)))

/-- `max(..., key = lambda f: format_sort_key(f, prefer_mp4))` comparison. -/
def fmtGt (prefer_mp4 : Bool) (a b : VideoFormat) : Bool :=
  tripleGt (format_sort_key prefer_mp4 a) (format_sort_key prefer_mp4 b)

/-- `max(..., key = lambda f: f.tbr or 0)` comparison used for audio pools. -/
def tbrGt (a b : VideoFormat) : Bool :=
  b.tbr.getD 0 < a.tbr.getD 0

/-- `abs((f.height or 0) - target_height)`. -/
def heightDiff (target : Nat) (f : VideoFormat) : Nat :=
  ((f.height.getD 0 : Int) - (target : Int)).natAbs

/-- The minimal height distance over a pool: the distance of `candidates[0]`
after the source's `sorted(pool, key = lambda f: abs(...))`. -/
def minHeightDiff (target : Nat) : List VideoFormat → Nat
  | [] => 0
  | f :: fs => fs.foldl (fun m g => min m (heightDiff target g)) (heightDiff target f)

/-- The video-pool selection pattern repeated in `get_download_urls`:
for "best" the maximal element of the pool by `format_sort_key`; otherwise the
maximal suitable element (truthy height at most the target), and if none is
suitable the maximal element among those closest to the target. The source
computes `closest` by filtering the stably `sorted` pool on the distance of
its first element, which — the sort being stable — equals filtering the
original pool on the minimal distance. -/
def selectVideo (prefer_mp4 : Bool) (resolution : String) (target : Nat)
    (pool : List VideoFormat) : Option VideoFormat :=
  if resolution == "best" then pymax (fmtGt prefer_mp4) pool
  else
    let suitable := pool.filter (fun f => pyTruthyNat f.height && f.height.getD 0 ≤ target)
    if !suitable.isEmpty then pymax (fmtGt prefer_mp4) suitable
    else
      let closest := pool.filter (fun f => heightDiff target f == minHeightDiff target pool)
      pymax (fmtGt prefer_mp4) closest

/-- The audio selection pattern of `get_download_urls`: prefer M4A entries of
the pool when `prefer_mp4` is set, by maximal bitrate. -/
def selectAudio (prefer_mp4 : Bool) (pool : List VideoFormat) : Option VideoFormat :=
  if prefer_mp4 then
    let m4a_audio := pool.filter (fun f => f.ext == "m4a")
    if !m4a_audio.isEmpty then pymax tbrGt m4a_audio else pymax tbrGt pool
  else pymax tbrGt pool

/-- The separate-streams block of `get_download_urls` (used verbatim twice in
the source: the high-resolution branch and the low-resolution fallback):
a video-only rendition is selected, `needs_merge` is set, and the best direct
audio-only rendition is attached when one exists. -/
def separateStreams (prefer_mp4 : Bool) (resolution : String) (target : Nat)
    (video_only_direct audio_only_direct : List VideoFormat)
    (init : DownloadUrls) : DownloadUrls :=
  match selectVideo prefer_mp4 resolution target video_only_direct with
  | none => init
  | some video =>
    let r1 := { init with video_url := some video.url,
                          video_format := some video, needs_merge := true }
    if !audio_only_direct.isEmpty then
      match selectAudio prefer_mp4 audio_only_direct with
      | none => r1
      | some audio =>
        { r1 with audio_url := some audio.url, audio_format := some audio }
    else r1

/-- The `resolution == "audio"` branch of `get_download_urls`: best direct
audio (M4A first when `prefer_mp4`), falling back to any audio-only rendition
with a URL. -/
def audioTarget (prefer_mp4 : Bool) (formats : List VideoFormat)
    (init : DownloadUrls) : DownloadUrls :=
  let audio_only := formats.filter (fun f => f.is_audio_only && f.url != "")
  let direct_audio := audio_only.filter (fun f => f.is_direct_download)
  let audio :=
    if !direct_audio.isEmpty then selectAudio prefer_mp4 direct_audio
    else if !audio_only.isEmpty then pymax tbrGt audio_only
    else none
  match audio with
  | some a => { init with audio_url := some a.url, audio_format := some a }
  | none => init

/-- The "last resort: any format including streaming" block of
`get_download_urls`. -/
def lastResort (prefer_mp4 : Bool) (resolution : String) (target : Nat)
    (formats : List VideoFormat) (init : DownloadUrls) : DownloadUrls :=
  let all_video := formats.filter (fun f =>
    f.is_video && f.url != "" && pyTruthyNat f.height)
  match selectVideo prefer_mp4 resolution target all_video with
  | none => init
  | some video =>
    let r1 := { init with video_url := some video.url, video_format := some video }
    if video.is_video_only then
      let r2 := { r1 with needs_merge := true }
      let all_audio := formats.filter (fun f => f.is_audio_only && f.url != "")
      if !all_audio.isEmpty then
        match selectAudio prefer_mp4 all_audio with
        | none => r2
        | some audio =>
          { r2 with audio_url := some audio.url, audio_format := some audio }
      else r2
    else r1

/-- `ExtractedVideo.get_download_urls` (url_extractor.py). The `formats`
argument is `self._formats`; `resolution` is one of "360" … "2160", "best",
"audio" (any other string raises `ValueError` at `int(resolution)` in the
source and is outside the modelled domain, parsed here with `pyParseNat`). -/
def get_download_urls (formats : List VideoFormat) (resolution : String)
    (prefer_mp4 : Bool) : DownloadUrls :=
  let init : DownloadUrls :=
    { video_url := none, audio_url := none, video_format := none,
      audio_format := none, needs_merge := false, resolution := resolution }
  if resolution == "audio" then
    audioTarget prefer_mp4 formats init
  else
    let target_height := if resolution == "best" then 9999 else (pyParseNat resolution).getD 0
    let prefer_separate := 720 ≤ target_height || resolution == "best"
    let video_only_direct := formats.filter (fun f =>
      f.is_video_only && f.url != "" && f.is_direct_download && pyTruthyNat f.height)
    let audio_only_direct := formats.filter (fun f =>
      f.is_audio_only && f.url != "" && f.is_direct_download)
    let combined_direct := formats.filter (fun f =>
      f.has_both && f.url != "" && f.is_direct_download && pyTruthyNat f.height)
    if prefer_separate && !video_only_direct.isEmpty then
      separateStreams prefer_mp4 resolution target_height
        video_only_direct audio_only_direct init
    else if !combined_direct.isEmpty then
      match selectVideo prefer_mp4 resolution target_height combined_direct with
      | none => init
      | some best =>
        { init with video_url := some best.url, video_format := some best }
    else if !video_only_direct.isEmpty then
      separateStreams prefer_mp4 resolution target_height
        video_only_direct audio_only_direct init
    else
      lastResort prefer_mp4 resolution target_height formats init

/-- The preference order of audio pools implemented by the "audio" branch of
`get_download_urls`: direct-download M4A renditions first (when `prefer_mp4`),
then direct-download audio, then any audio-only rendition with a URL. -/
def preferredAudioPool (formats : List VideoFormat) (prefer_mp4 : Bool) :
    List VideoFormat :=
  let audio_only := formats.filter (fun f => f.is_audio_only && f.url != "")
  let direct_audio := audio_only.filter (fun f => f.is_direct_download)
  if !direct_audio.isEmpty then
    if prefer_mp4 then
      let m4a_audio := direct_audio.filter (fun f => f.ext == "m4a")
      if !m4a_audio.isEmpty then m4a_audio else direct_audio
    else direct_audio
  else audio_only

end UrlExtractor

namespace Models

/-- `AuthenticationBundle.get_formatted_po_token` (backend/app/models.py):
`None` when the token is falsy (absent, or empty — a state the pydantic
validator `validate_po_token` rules out for constructed bundles), otherwise
the token guaranteed to carry the `web+` prefix. -/
def get_formatted_po_token (po_token : Option String) : Option String :=
  match po_token with
  | none => none
  | some t =>
    if t = "" then none
    else if strStartsWith t "web+" then some t
    else some ("web+" ++ t)

/-- `AuthenticationBundle.is_expired` (backend/app/models.py): strictly more
than `max_age_seconds` (default 3600) elapsed since extraction. Instants are
seconds as integers; `now` is `datetime.now()` at the query. -/
def is_expired (extraction_timestamp now : Int) (max_age_seconds : Int) : Bool :=
  now - extraction_timestamp > max_age_seconds

/-- `AuthenticationBundle.has_tokens`. -/
def has_tokens (po_token visitor_data : Option String) : Bool :=
  pyTruthyStr po_token || pyTruthyStr visitor_data

end Models

namespace AgentGo

/-- `AgentGoService.COOKIE_EXPIRY` (backend/app/services/agentgo_service.py). -/
def COOKIE_EXPIRY : Int := 3600

/-- `AgentGoService._get_cached_cookie_for_region`: the region cache maps a
region to the cookie-file path and its insertion instant (`time.time()` at
`_region_cookies_cache[region] = (cookie_path, time.time())`), modelled as an
association list; `fileExists` abstracts `Path(cookie_file).exists()` and
`now` is `time.time()` at the query. The read self-filters on the TTL. -/
def get_cached_cookie_for_region (fileExists : String → Bool)
    (cache : List (String × String × Int)) (now : Int) (region : String) :
    Option String :=
  match cache.lookup region with
  | none => none
  | some (cookie_file, timestamp) =>
    if now - timestamp > COOKIE_EXPIRY then none
    else if !fileExists cookie_file then none
    else some cookie_file

end AgentGo

-- Generic facts about the selection helpers.

theorem foldl_best_mem {α : Type} (gt : α → α → Bool) (l : List α) (acc : α) :
    l.foldl (fun best y => if gt y best then y else best) acc = acc ∨
      l.foldl (fun best y => if gt y best then y else best) acc ∈ l := by
  induction l generalizing acc with
  | nil => exact Or.inl rfl
  | cons b bs ih =>
    simp only [List.foldl_cons]
    rcases ih (if gt b acc then b else acc) with h | h
    · rw [h]
      by_cases hg : gt b acc = true
      · simp [hg]
      · simp [hg]
    · exact Or.inr (List.mem_cons_of_mem _ h)

theorem pymax_mem {α : Type} (gt : α → α → Bool) (l : List α) (x : α)
    (h : pymax gt l = some x) : x ∈ l := by
  cases l with
  | nil => simp [pymax] at h
  | cons a as =>
    simp only [pymax, Option.some.injEq] at h
    rcases foldl_best_mem gt as a with h2 | h2
    · rw [← h, h2]; exact List.mem_cons_self a as
    · rw [← h]; exact List.mem_cons_of_mem _ h2

theorem pymax_isSome {α : Type} (gt : α → α → Bool) (l : List α)
    (h : l ≠ []) : ∃ x, pymax gt l = some x := by
  cases l with
  | nil => exact absurd rfl h
  | cons a as => exact ⟨_, rfl⟩

namespace UrlExtractor

theorem tbr_foldl_le (l : List VideoFormat) (acc : VideoFormat) :
    acc.tbr.getD 0 ≤
      (l.foldl (fun best y => if tbrGt y best then y else best) acc).tbr.getD 0 ∧
    ∀ y ∈ l, y.tbr.getD 0 ≤
      (l.foldl (fun best y => if tbrGt y best then y else best) acc).tbr.getD 0 := by
  induction l generalizing acc with
  | nil => simp
  | cons b bs ih =>
    simp only [List.foldl_cons]
    have hstep : acc.tbr.getD 0 ≤ (if tbrGt b acc then b else acc).tbr.getD 0 ∧
        b.tbr.getD 0 ≤ (if tbrGt b acc then b else acc).tbr.getD 0 := by
      by_cases hg : acc.tbr.getD 0 < b.tbr.getD 0
      · simp [tbrGt, hg]; omega
      · simp [tbrGt, hg]; omega
    refine ⟨le_trans hstep.1 (ih _).1, ?_⟩
    intro y hy
    rcases List.mem_cons.mp hy with rfl | hy
    · exact le_trans hstep.2 (ih _).1
    · exact (ih _).2 y hy

theorem pymax_tbr_le (l : List VideoFormat) (x : VideoFormat)
    (h : pymax tbrGt l = some x) : ∀ y ∈ l, y.tbr.getD 0 ≤ x.tbr.getD 0 := by
  cases l with
  | nil => simp [pymax] at h
  | cons a as =>
    simp only [pymax, Option.some.injEq] at h
    intro y hy
    rcases List.mem_cons.mp hy with rfl | hy
    · rw [← h]; exact (tbr_foldl_le as y).1
    · rw [← h]; exact (tbr_foldl_le as a).2 y hy

end UrlExtractor

-- C10 ------------------------------------------------------------------

/-- C10: for every `AuthenticationBundle` (whose validator guarantees a
present token is non-empty), `get_formatted_po_token` returns `None` exactly
when `po_token` is absent; otherwise it returns a token starting with `web+`,
and formatting an already `web+`-prefixed token returns it unchanged. -/
theorem get_formatted_po_token_correct (po_token : Option String)
    (hval : ∀ t, po_token = some t → t ≠ "") :
    (Models.get_formatted_po_token po_token = none ↔ po_token = none) ∧
    (∀ t, po_token = some t →
      ∃ r, Models.get_formatted_po_token po_token = some r ∧
        strStartsWith r "web+" = true) ∧
    (∀ t, po_token = some t → strStartsWith t "web+" = true →
      Models.get_formatted_po_token po_token = some t) := by
  have hweb : ∀ t : String, strStartsWith ("web+" ++ t) "web+" = true := by
    intro t
    unfold strStartsWith
    rw [data_append]
    exact isPrefixOf_append_self _ _
  cases po_token with
  | none => simp [Models.get_formatted_po_token]
  | some t =>
    have ht : t ≠ "" := hval t rfl
    refine ⟨by by_cases hs : strStartsWith t "web+" = true <;>
      simp [Models.get_formatted_po_token, ht, hs], ?_, ?_⟩
    · rintro t' ⟨rfl⟩
      by_cases hs : strStartsWith t "web+" = true
      · exact ⟨t, by simp [Models.get_formatted_po_token, ht, hs], hs⟩
      · exact ⟨"web+" ++ t, by simp [Models.get_formatted_po_token, ht, hs], hweb t⟩
    · rintro t' ⟨rfl⟩ hs
      simp [Models.get_formatted_po_token, ht, hs]

/-- Witness for C10 at the concrete, already formatted token "web+abc123". -/
theorem get_formatted_po_token_correct_wit :
    Models.get_formatted_po_token (some "web+abc123") = some "web+abc123" :=
  (get_formatted_po_token_correct (some "web+abc123")
    (by intro t h; cases h; decide)).2.2 "web+abc123" rfl (by decide)

-- C3 -------------------------------------------------------------------

/-- C3 counterexample: a bundle cached for region "us" at instant 0 is still
returned by the cache read at instant exactly 0 + 3600, although the claim
requires `None` for every query at or after T + 3600 (the code's expiry test
is strict). -/
theorem cex_cache_ttl_boundary :
    AgentGo.get_cached_cookie_for_region (fun _ => true)
      [("us", ("cookies_us.txt", 0))] 3600 "us" = some "cookies_us.txt" ∧
    (0 : Int) + 3600 ≤ 3600 := by
  constructor
  · rfl
  · decide

/-- C3 amended: a bundle cached for a region at instant T with TTL 3600 is
returned by a cache read at instant t whenever t ≤ T + 3600 (and the cookie
file exists), and the read returns `None` whenever t > T + 3600: the read
self-filters on the TTL with a strict comparison, so the boundary instant
T + 3600 itself still serves the bundle. -/
theorem cache_ttl_amended (fileExists : String → Bool)
    (cache : List (String × String × Int)) (now : Int)
    (region cookie_file : String) (timestamp : Int)
    (hlook : cache.lookup region = some (cookie_file, timestamp))
    (hex : fileExists cookie_file = true) :
    (now ≤ timestamp + AgentGo.COOKIE_EXPIRY →
      AgentGo.get_cached_cookie_for_region fileExists cache now region =
        some cookie_file) ∧
    (timestamp + AgentGo.COOKIE_EXPIRY < now →
      AgentGo.get_cached_cookie_for_region fileExists cache now region = none) := by
  unfold AgentGo.get_cached_cookie_for_region
  rw [hlook]
  constructor
  · intro h
    have hno : ¬ now - timestamp > AgentGo.COOKIE_EXPIRY := by
      unfold AgentGo.COOKIE_EXPIRY at *
      omega
    simp [hno, hex]
  · intro h
    have hyes : now - timestamp > AgentGo.COOKIE_EXPIRY := by
      unfold AgentGo.COOKIE_EXPIRY at *
      omega
    simp [hyes]

/-- Witness for C3: the fresh read inside the window and the stale read
outside it, at concrete instants 100 and 4000. -/
theorem cache_ttl_amended_wit :
    AgentGo.get_cached_cookie_for_region (fun _ => true)
      [("us", ("cookies_us.txt", 0))] 100 "us" = some "cookies_us.txt" ∧
    AgentGo.get_cached_cookie_for_region (fun _ => true)
      [("us", ("cookies_us.txt", 0))] 4000 "us" = none :=
  ⟨(cache_ttl_amended (fun _ => true) [("us", ("cookies_us.txt", 0))] 100
      "us" "cookies_us.txt" 0 (by decide) rfl).1 (by decide),
   (cache_ttl_amended (fun _ => true) [("us", ("cookies_us.txt", 0))] 4000
      "us" "cookies_us.txt" 0 (by decide) rfl).2 (by decide)⟩

-- C6 -------------------------------------------------------------------

/-- C6 counterexample: the message "HTTP Error 403: Forbidden" contains the
403 indicator, yet the downloader's classifier returns `false` on it (its
vocabulary, unlike the URL extractor's, has no "403" entry). -/
theorem cex_bot_classifier_403 :
    Downloader.is_bot_detection_error "HTTP Error 403: Forbidden" = false ∧
    strContains "HTTP Error 403: Forbidden" "403" = true ∧
    lowerStr "403" = "403" := by decide

/-- C6 amended: both classifiers are pure case-insensitive matchers against a
fixed vocabulary. Any message containing (in any letter case) one of
"confirm you're not a bot", "unusual traffic", "captcha",
"rate limit exceeded", a bare "403" indicator, or
"failed to extract any player response" is classified as bot detection by
the URL extractor's classifier; the downloader's classifier matches the same
phrases except the bare 403 indicator. -/
theorem bot_classifier_amended (msg : String) :
    ((∃ v, strContains msg v = true ∧
        (lowerStr v = "confirm you\x27re not a bot" ∨ lowerStr v = "unusual traffic" ∨
         lowerStr v = "captcha" ∨ lowerStr v = "rate limit exceeded" ∨
         lowerStr v = "403" ∨
         lowerStr v = "failed to extract any player response")) →
      UrlExtractor.is_bot_detection_error msg = true) ∧
    ((∃ v, strContains msg v = true ∧
        (lowerStr v = "confirm you\x27re not a bot" ∨ lowerStr v = "unusual traffic" ∨
         lowerStr v = "captcha" ∨ lowerStr v = "rate limit exceeded" ∨
         lowerStr v = "failed to extract any player response")) →
      Downloader.is_bot_detection_error msg = true) := by
  have keyU : ∀ kw, kw ∈ UrlExtractor.bot_keywords →
      strContains (lowerStr msg) kw = true →
      UrlExtractor.is_bot_detection_error msg = true := by
    intro kw hm hc
    exact List.any_eq_true.mpr ⟨kw, hm, hc⟩
  have keyD : ∀ kw, kw ∈ Downloader.bot_keywords →
      strContains (lowerStr msg) kw = true →
      Downloader.is_bot_detection_error msg = true := by
    intro kw hm hc
    exact List.any_eq_true.mpr ⟨kw, hm, hc⟩
  constructor
  · rintro ⟨v, hv, h | h | h | h | h | h⟩ <;>
      exact keyU _ (by decide) (strContains_lower_of_variant msg v _ hv h)
  · rintro ⟨v, hv, h | h | h | h | h⟩ <;>
      exact keyD _ (by decide) (strContains_lower_of_variant msg v _ hv h)

/-- Witness for C6 at message "Detected CAPTCHA challenge" (note the letter
case), classified as bot detection by both classifiers. -/
theorem bot_classifier_amended_wit :
    UrlExtractor.is_bot_detection_error "Detected CAPTCHA challenge" = true ∧
    Downloader.is_bot_detection_error "Detected CAPTCHA challenge" = true :=
  ⟨(bot_classifier_amended "Detected CAPTCHA challenge").1
      ⟨"CAPTCHA", by decide, Or.inr (Or.inr (Or.inl (by decide)))⟩,
   (bot_classifier_amended "Detected CAPTCHA challenge").2
      ⟨"CAPTCHA", by decide, Or.inr (Or.inr (Or.inl (by decide)))⟩⟩

-- C9 -------------------------------------------------------------------

/-- The concrete reachable rotator state for the C9 counterexample: a pool of
two proxies, the first of which has just been marked failed. -/
def cexRotState : Downloader.ProxyRotator :=
  Downloader.ProxyRotator.mark_failed "http://a"
    (Downloader.ProxyRotator.init ["http://a", "http://b"])

/-- C9 counterexample: in the reachable state where only "http://a" of the
two-proxy pool is failed, the round-robin selection `get_next` still returns
"http://a" — a selection returning a member of the failed set although the
failed set does not cover the pool. -/
theorem cex_rotator_round_robin :
    (Downloader.ProxyRotator.get_next cexRotState).1 = some "http://a" ∧
    "http://a" ∈ cexRotState.failed_proxies ∧
    "http://b" ∈ cexRotState.proxies ∧
    "http://b" ∉ cexRotState.failed_proxies := by decide

/-- C9 amended: the random selection `get_random` never returns an endpoint of
the failed set unless the failed set covers the whole pool, in which case the
failed set is cleared before selection, and it returns `None` exactly when the
pool is empty; the round-robin selection `get_next` returns `None` exactly
when the pool is empty but ignores the failed set. -/
theorem rotator_selection_amended (choice : List String → String)
    (hc : ∀ l : List String, l ≠ [] → choice l ∈ l)
    (st : Downloader.ProxyRotator) :
    ((st.get_random choice).1 = none ↔ st.proxies = []) ∧
    (∀ x, (st.get_random choice).1 = some x → x ∈ st.proxies) ∧
    (∀ x, (st.get_random choice).1 = some x → x ∈ st.failed_proxies →
      (∀ p ∈ st.proxies, p ∈ st.failed_proxies) ∧
      (st.get_random choice).2.failed_proxies = []) ∧
    (st.get_next.1 = none ↔ st.proxies = []) := by
  have hnext : st.get_next.1 = none ↔ st.proxies = [] := by
    unfold Downloader.ProxyRotator.get_next
    by_cases hp : st.proxies.isEmpty
    · rw [if_pos hp]
      exact iff_of_true rfl (List.isEmpty_iff.mp hp)
    · rw [if_neg hp]
      exact iff_of_false (fun h => Option.noConfusion h)
        (fun h => hp (List.isEmpty_iff.mpr h))
  have hval : st.get_random choice =
      (if (st.proxies.filter fun p => !(st.failed_proxies.contains p)).isEmpty then
        (if st.proxies.isEmpty then
          ((none : Option String), { st with failed_proxies := [] })
         else (some (choice st.proxies), { st with failed_proxies := [] }))
       else
         (some (choice (st.proxies.filter fun p => !(st.failed_proxies.contains p))),
          st)) := rfl
  by_cases hA : (st.proxies.filter fun p => !(st.failed_proxies.contains p)).isEmpty
  · rw [if_pos hA] at hval
    have hAll : ∀ p ∈ st.proxies, p ∈ st.failed_proxies := by
      intro p hp
      have h1 := List.filter_eq_nil_iff.mp (List.isEmpty_iff.mp hA) p hp
      cases hcp : st.failed_proxies.contains p with
      | false => exact absurd (by rw [hcp]; rfl) h1
      | true => exact List.mem_of_elem_eq_true hcp
    by_cases hP : st.proxies.isEmpty
    · rw [if_pos hP] at hval
      refine ⟨?_, ?_, ?_, hnext⟩
      · rw [hval]
        exact iff_of_true rfl (List.isEmpty_iff.mp hP)
      · intro x hx
        rw [hval] at hx
        exact absurd hx (fun h => Option.noConfusion h)
      · intro x hx
        rw [hval] at hx
        exact absurd hx (fun h => Option.noConfusion h)
    · have hne : st.proxies ≠ [] := fun h => hP (List.isEmpty_iff.mpr h)
      rw [if_neg hP] at hval
      refine ⟨?_, ?_, ?_, hnext⟩
      · rw [hval]
        exact iff_of_false (fun h => Option.noConfusion h) hne
      · intro x hx
        rw [hval] at hx
        replace hx : some (choice st.proxies) = some x := hx
        cases hx
        exact hc _ hne
      · intro x hx hmem
        rw [hval]
        exact ⟨hAll, rfl⟩
  · have hne : st.proxies.filter (fun p => !(st.failed_proxies.contains p)) ≠ [] :=
      fun h => hA (List.isEmpty_iff.mpr h)
    rw [if_neg hA] at hval
    refine ⟨?_, ?_, ?_, hnext⟩
    · rw [hval]
      refine iff_of_false (fun h => Option.noConfusion h) ?_
      intro h
      exact hne (by simp [h])
    · intro x hx
      rw [hval] at hx
      replace hx : some (choice (st.proxies.filter
        fun p => !(st.failed_proxies.contains p))) = some x := hx
      cases hx
      exact List.mem_of_mem_filter (hc _ hne)
    · intro x hx hmem
      rw [hval] at hx
      replace hx : some (choice (st.proxies.filter
        fun p => !(st.failed_proxies.contains p))) = some x := hx
      cases hx
      have h2 := List.of_mem_filter (hc _ hne)
      rw [show st.failed_proxies.contains _ = true from
        List.elem_eq_true_of_mem hmem] at h2
      simp at h2

/-- Witness for C9: in the counterexample state the random selection (with a
head-picking choice function) returns a pool member. -/
theorem rotator_selection_amended_wit :
    "http://b" ∈ cexRotState.proxies :=
  (rotator_selection_amended (fun l => l.headD "")
    (by intro l hl; cases l with
        | nil => exact absurd rfl hl
        | cons a as => simp)
    cexRotState).2.1 "http://b" (by decide)

-- C5 -------------------------------------------------------------------

/-- A rendition whose URL never resolved (empty `url`), as delivered by
`VideoFormat(fmt)` when the upstream format dictionary lacks a usable URL. -/
def urllessFormat : UrlExtractor.VideoFormat :=
  { format_id := "18", url := "", ext := "mp4", height := some 360,
    vcodec := some "avc1.42001E", acodec := some "mp4a.40.2",
    tbr := some 500, protocol := "https" }

/-- C5 counterexample: on a rendition set where nothing has a resolvable URL,
`get_download_urls` does not fail — it returns the result whose video and
audio URLs are both null. -/
theorem cex_no_rendition_nulls :
    (UrlExtractor.get_download_urls [urllessFormat] "720" true).video_url = none ∧
    (UrlExtractor.get_download_urls [urllessFormat] "720" true).audio_url = none := by
  constructor <;> rfl

/-- C5 amended: when no rendition has a resolvable URL, format selection
returns (rather than raising any error) the initial result with
`video_url = None`, `audio_url = None` and `needs_merge = False`; no
"no downloadable rendition" failure exists in `get_download_urls`. -/
theorem no_rendition_returns_nulls (formats : List UrlExtractor.VideoFormat)
    (resolution : String) (prefer_mp4 : Bool)
    (h : ∀ f ∈ formats, f.url = "") :
    (UrlExtractor.get_download_urls formats resolution prefer_mp4).video_url = none ∧
    (UrlExtractor.get_download_urls formats resolution prefer_mp4).audio_url = none ∧
    (UrlExtractor.get_download_urls formats resolution prefer_mp4).needs_merge
      = false := by
  have key : ∀ (p : UrlExtractor.VideoFormat → Bool),
      (∀ f, f.url = "" → p f = false) → formats.filter p = [] := by
    intro p hp
    exact List.filter_eq_nil_iff.mpr
      (fun f hf => by rw [hp f (h f hf)]; exact Bool.false_ne_true)
  have h1 : formats.filter
      (fun f => f.is_audio_only && f.url != "") = [] := by
    apply key; intro f hurl; simp [hurl]
  have h2 : formats.filter (fun f =>
      f.is_video_only && f.url != "" && f.is_direct_download &&
        pyTruthyNat f.height) = [] := by
    apply key; intro f hurl; simp [hurl]
  have h3 : formats.filter (fun f =>
      f.is_audio_only && f.url != "" && f.is_direct_download) = [] := by
    apply key; intro f hurl; simp [hurl]
  have h4 : formats.filter (fun f =>
      f.has_both && f.url != "" && f.is_direct_download &&
        pyTruthyNat f.height) = [] := by
    apply key; intro f hurl; simp [hurl]
  have h5 : formats.filter (fun f =>
      f.is_video && f.url != "" && pyTruthyNat f.height) = [] := by
    apply key; intro f hurl; simp [hurl]
  by_cases ha : resolution = "audio"
  · subst ha
    simp [UrlExtractor.get_download_urls, UrlExtractor.audioTarget, h1]
  · simp [UrlExtractor.get_download_urls, UrlExtractor.audioTarget,
      UrlExtractor.lastResort, h1, h2, h3, h4, h5, ha,
      UrlExtractor.selectVideo, pymax]

/-- Witness for C5: the all-null result on the concrete URL-less rendition set. -/
theorem no_rendition_returns_nulls_wit :
    (UrlExtractor.get_download_urls [urllessFormat] "480" true).video_url = none ∧
    (UrlExtractor.get_download_urls [urllessFormat] "480" true).audio_url = none ∧
    (UrlExtractor.get_download_urls [urllessFormat] "480" true).needs_merge
      = false :=
  no_rendition_returns_nulls [urllessFormat] "480" true (by decide)

-- Facts about the selection helpers, shared by the format-selection claims.

theorem foldl_min_attained {α : Type} (d : α → Nat) (l : List α) (acc : Nat) :
    l.foldl (fun m g => min m (d g)) acc = acc ∨
    ∃ g ∈ l, l.foldl (fun m g => min m (d g)) acc = d g := by
  induction l generalizing acc with
  | nil => exact Or.inl rfl
  | cons b bs ih =>
    simp only [List.foldl_cons]
    rcases ih (min acc (d b)) with h | ⟨g, hg, hEq⟩
    · rw [h]
      by_cases hle : acc ≤ d b
      · exact Or.inl (by omega)
      · exact Or.inr ⟨b, List.mem_cons_self b bs, by omega⟩
    · exact Or.inr ⟨g, List.mem_cons_of_mem _ hg, hEq⟩

namespace UrlExtractor

theorem minHeightDiff_attained (target : Nat) (l : List VideoFormat)
    (h : l ≠ []) : ∃ g ∈ l, heightDiff target g = minHeightDiff target l := by
  cases l with
  | nil => exact absurd rfl h
  | cons f fs =>
    unfold minHeightDiff
    rcases foldl_min_attained (heightDiff target) fs (heightDiff target f) with
      hEq | ⟨g, hg, hEq⟩
    · exact ⟨f, List.mem_cons_self f fs, hEq.symm⟩
    · exact ⟨g, List.mem_cons_of_mem _ hg, hEq.symm⟩

theorem selectVideo_isSome (prefer_mp4 : Bool) (resolution : String)
    (target : Nat) (pool : List VideoFormat) (h : pool ≠ []) :
    ∃ v, selectVideo prefer_mp4 resolution target pool = some v := by
  unfold selectVideo
  by_cases hbest : (resolution == "best") = true
  · rw [if_pos hbest]
    exact pymax_isSome _ _ h
  · rw [if_neg hbest]
    by_cases hsuit : (pool.filter fun f =>
        pyTruthyNat f.height && f.height.getD 0 ≤ target).isEmpty
    · have hclose : pool.filter
          (fun f => heightDiff target f == minHeightDiff target pool) ≠ [] := by
        obtain ⟨g, hg, hEq⟩ := minHeightDiff_attained target pool h
        exact List.ne_nil_of_mem (List.mem_filter.mpr ⟨hg, by simp [hEq]⟩)
      simp only [hsuit, Bool.not_true, if_neg (by simp : ¬ (false = true))]
      exact pymax_isSome _ _ hclose
    · have hne : pool.filter (fun f =>
          pyTruthyNat f.height && f.height.getD 0 ≤ target) ≠ [] :=
        fun hEq => hsuit (List.isEmpty_iff.mpr hEq)
      rw [if_pos (by simp [hsuit])]
      exact pymax_isSome _ _ hne

theorem selectVideo_mem (prefer_mp4 : Bool) (resolution : String)
    (target : Nat) (pool : List VideoFormat) (v : VideoFormat)
    (h : selectVideo prefer_mp4 resolution target pool = some v) : v ∈ pool := by
  unfold selectVideo at h
  by_cases hbest : (resolution == "best") = true
  · rw [if_pos hbest] at h
    exact pymax_mem _ _ _ h
  · rw [if_neg hbest] at h
    by_cases hsuit : (pool.filter fun f =>
        pyTruthyNat f.height && f.height.getD 0 ≤ target).isEmpty
    · simp only [hsuit, Bool.not_true, if_neg (by simp : ¬ (false = true))] at h
      exact List.mem_of_mem_filter (pymax_mem _ _ _ h)
    · rw [if_pos (by simp [hsuit])] at h
      exact List.mem_of_mem_filter (pymax_mem _ _ _ h)

theorem selectVideo_nil (prefer_mp4 : Bool) (resolution : String)
    (target : Nat) : selectVideo prefer_mp4 resolution target [] = none := by
  unfold selectVideo
  by_cases hbest : (resolution == "best") = true <;>
    simp [hbest, pymax]

theorem selectAudio_isSome (prefer_mp4 : Bool) (pool : List VideoFormat)
    (h : pool ≠ []) : ∃ a, selectAudio prefer_mp4 pool = some a := by
  unfold selectAudio
  by_cases hpm : prefer_mp4 = true
  · rw [if_pos hpm]
    by_cases hm4a : (pool.filter fun f => f.ext == "m4a").isEmpty
    · simp only [hm4a, Bool.not_true, if_neg (by simp : ¬ (false = true))]
      exact pymax_isSome _ _ h
    · rw [if_pos (by simp [hm4a])]
      exact pymax_isSome _ _ (fun hEq => hm4a (List.isEmpty_iff.mpr hEq))
  · rw [if_neg hpm]
    exact pymax_isSome _ _ h

theorem selectAudio_mem (prefer_mp4 : Bool) (pool : List VideoFormat)
    (a : VideoFormat) (h : selectAudio prefer_mp4 pool = some a) : a ∈ pool := by
  unfold selectAudio at h
  by_cases hpm : prefer_mp4 = true
  · rw [if_pos hpm] at h
    by_cases hm4a : (pool.filter fun f => f.ext == "m4a").isEmpty
    · simp only [hm4a, Bool.not_true, if_neg (by simp : ¬ (false = true))] at h
      exact pymax_mem _ _ _ h
    · rw [if_pos (by simp [hm4a])] at h
      exact List.mem_of_mem_filter (pymax_mem _ _ _ h)
  · rw [if_neg hpm] at h
    exact pymax_mem _ _ _ h

end UrlExtractor

namespace UrlExtractor

theorem audioTarget_untouched (prefer_mp4 : Bool) (formats : List VideoFormat)
    (init : DownloadUrls) :
    (audioTarget prefer_mp4 formats init).needs_merge = init.needs_merge ∧
    (audioTarget prefer_mp4 formats init).video_url = init.video_url ∧
    (audioTarget prefer_mp4 formats init).video_format = init.video_format := by
  simp only [audioTarget]
  split <;> exact ⟨rfl, rfl, rfl⟩

theorem separateStreams_spec (prefer_mp4 : Bool) (resolution : String)
    (target : Nat) (vod aod : List VideoFormat) (init : DownloadUrls)
    (hvod : vod ≠ []) :
    (separateStreams prefer_mp4 resolution target vod aod init).needs_merge
      = true ∧
    (∃ v : VideoFormat, selectVideo prefer_mp4 resolution target vod = some v ∧
      (separateStreams prefer_mp4 resolution target vod aod init).video_url
        = some v.url) ∧
    (aod ≠ [] → ∃ a : VideoFormat,
      (separateStreams prefer_mp4 resolution target vod aod init).audio_url
        = some a.url) := by
  obtain ⟨v, hv⟩ := selectVideo_isSome prefer_mp4 resolution target vod hvod
  by_cases haod : aod.isEmpty
  · have hnb : (!aod.isEmpty) = false := by simp [haod]
    refine ⟨?_, ⟨v, hv, ?_⟩, fun h => absurd (List.isEmpty_iff.mp haod) h⟩
    · simp [separateStreams, hv, hnb]
    · simp [separateStreams, hv, hnb]
  · have hne : aod ≠ [] := fun h => haod (List.isEmpty_iff.mpr h)
    obtain ⟨a, ha⟩ := selectAudio_isSome prefer_mp4 aod hne
    have hnb : (!aod.isEmpty) = true := by simp [haod]
    refine ⟨?_, ⟨v, hv, ?_⟩, fun _ => ⟨a, ?_⟩⟩
    · simp [separateStreams, hv, hnb, ha]
    · simp [separateStreams, hv, hnb, ha]
    · simp [separateStreams, hv, hnb, ha]

theorem lastResort_spec (prefer_mp4 : Bool) (resolution : String) (target : Nat)
    (formats : List VideoFormat) (init : DownloadUrls)
    (hnm : init.needs_merge = false) (hvu : init.video_url = none) :
    ((lastResort prefer_mp4 resolution target formats init).needs_merge = true →
      ∃ v : VideoFormat,
        (lastResort prefer_mp4 resolution target formats init).video_url
          = some v.url) ∧
    ((lastResort prefer_mp4 resolution target formats init).needs_merge = true →
      (∃ f ∈ formats, f.is_audio_only = true ∧ f.url ≠ "") →
      ∃ a : VideoFormat,
        (lastResort prefer_mp4 resolution target formats init).audio_url
          = some a.url) ∧
    ((lastResort prefer_mp4 resolution target formats init).needs_merge = false →
      ∀ u, (lastResort prefer_mp4 resolution target formats init).video_url
        = some u →
      ∃ f, (lastResort prefer_mp4 resolution target formats init).video_format
        = some f ∧ f.has_both = true ∧ f.url = u) := by
  cases hsel : selectVideo prefer_mp4 resolution target
      (formats.filter fun f => f.is_video && f.url != "" && pyTruthyNat f.height) with
  | none =>
    simp only [lastResort, hsel]
    refine ⟨fun hm => absurd (hnm ▸ hm) (by simp),
      fun hm _ => absurd (hnm ▸ hm) (by simp), ?_⟩
    intro _ u hu
    rw [hvu] at hu
    exact absurd hu (by simp)
  | some video =>
    have hvmem := selectVideo_mem _ _ _ _ _ hsel
    have hvprops := List.of_mem_filter hvmem
    simp only [Bool.and_eq_true] at hvprops
    by_cases hvo : video.is_video_only = true
    · by_cases hall : (formats.filter fun f => f.is_audio_only && f.url != "").isEmpty
      · have hnb : (!(formats.filter
            fun f => f.is_audio_only && f.url != "").isEmpty) = false := by
          simp [hall]
        simp only [lastResort, hsel, hvo, if_true, hnb, Bool.false_eq_true, if_false]
        refine ⟨fun _ => ⟨video, rfl⟩, ?_, fun hm => absurd hm (by simp)⟩
        rintro _ ⟨f, hf, hao, hurl⟩
        have hfmem : f ∈ formats.filter fun f => f.is_audio_only && f.url != "" :=
          List.mem_filter.mpr ⟨hf, by simp [hao, hurl]⟩
        rw [List.isEmpty_iff.mp hall] at hfmem
        exact absurd hfmem (by simp)
      · have hne : formats.filter (fun f => f.is_audio_only && f.url != "") ≠ [] :=
          fun h => hall (List.isEmpty_iff.mpr h)
        obtain ⟨a, ha⟩ := selectAudio_isSome prefer_mp4 _ hne
        have hnb : (!(formats.filter
            fun f => f.is_audio_only && f.url != "").isEmpty) = true := by
          simp [hall]
        simp only [lastResort, hsel, hvo, if_true, hnb, ha]
        exact ⟨fun _ => ⟨video, rfl⟩, fun _ _ => ⟨a, rfl⟩,
          fun hm => absurd hm (by simp)⟩
    · have hvof : video.is_video_only = false := by
        cases h : video.is_video_only with
        | false => rfl
        | true => exact absurd h hvo
      simp only [lastResort, hsel, hvof, Bool.false_eq_true, if_false]
      refine ⟨fun hm => absurd (hnm ▸ hm) (by simp),
        fun hm _ => absurd (hnm ▸ hm) (by simp), ?_⟩
      intro _ u hu
      replace hu : some video.url = some u := hu
      cases hu
      refine ⟨video, rfl, ?_, rfl⟩
      have hvideo : video.is_video = true := hvprops.1.1
      unfold VideoFormat.is_video_only at hvof
      unfold VideoFormat.has_both
      rw [hvideo] at hvof ⊢
      simp only [Bool.true_and] at hvof ⊢
      cases haud : video.is_audio with
      | false => exact absurd (by rw [haud] at hvof; exact hvof) (by simp)
      | true => rfl

end UrlExtractor

theorem ne_nil_of_not_isEmpty {α : Type} {l : List α}
    (h : (!l.isEmpty) = true) : l ≠ [] := by
  intro hl
  subst hl
  simp at h

-- C4 -------------------------------------------------------------------

/-- A 1080p video-only direct-download rendition. -/
def vOnly1080 : UrlExtractor.VideoFormat :=
  { format_id := "137", url := "https://googlevideo.com/v1080", ext := "mp4",
    height := some 1080, vcodec := some "avc1.640028", acodec := some "none",
    tbr := some 2500, protocol := "https" }

/-- C4 counterexample: a rendition set holding only a video-only rendition
produces a result with `needs_merge = true` but no audio URL at all, so
`needs_merge = true` does not imply both renditions are present. -/
theorem cex_merge_without_audio :
    (UrlExtractor.get_download_urls [vOnly1080] "720" true).needs_merge = true ∧
    (UrlExtractor.get_download_urls [vOnly1080] "720" true).audio_url = none := by
  decide

/-- C4 amended: in every result of `get_download_urls`, `needs_merge = true`
implies a video URL is present, and an audio URL is additionally present
whenever the rendition set holds at least one direct-download audio-only
rendition with a URL; `needs_merge = false` together with a video URL implies
the single selected rendition supplies both video and audio. (The original
claim fails because the audio half of a separate-streams result is dropped —
not restored from nulls — when no audio-only rendition is available.) -/
theorem merge_flag_amended (formats : List UrlExtractor.VideoFormat)
    (resolution : String) (prefer_mp4 : Bool) :
    ((UrlExtractor.get_download_urls formats resolution prefer_mp4).needs_merge
        = true →
      ∃ v : UrlExtractor.VideoFormat,
        (UrlExtractor.get_download_urls formats resolution prefer_mp4).video_url
          = some v.url) ∧
    ((UrlExtractor.get_download_urls formats resolution prefer_mp4).needs_merge
        = true →
      (∃ f ∈ formats, f.is_audio_only = true ∧ f.url ≠ "" ∧
        f.is_direct_download = true) →
      ∃ a : UrlExtractor.VideoFormat,
        (UrlExtractor.get_download_urls formats resolution prefer_mp4).audio_url
          = some a.url) ∧
    ((UrlExtractor.get_download_urls formats resolution prefer_mp4).needs_merge
        = false →
      ∀ u, (UrlExtractor.get_download_urls formats resolution prefer_mp4).video_url
        = some u →
      ∃ f, (UrlExtractor.get_download_urls formats resolution prefer_mp4).video_format
        = some f ∧ f.has_both = true ∧ f.url = u) := by
  simp only [UrlExtractor.get_download_urls]
  split
  case isTrue hres =>
    have hu := UrlExtractor.audioTarget_untouched prefer_mp4 formats
      { video_url := none, audio_url := none, video_format := none,
        audio_format := none, needs_merge := false, resolution := resolution }
    refine ⟨fun hm => ?_, fun hm _ => ?_, fun _ u hu2 => ?_⟩
    · rw [hu.1] at hm; simp at hm
    · rw [hu.1] at hm; simp at hm
    · rw [hu.2.1] at hu2; simp at hu2
  case isFalse hres =>
    set INIT : UrlExtractor.DownloadUrls :=
      { video_url := none, audio_url := none, video_format := none,
        audio_format := none, needs_merge := false, resolution := resolution }
      with hINIT
    set TH : Nat :=
      (if resolution == "best" then 9999 else (pyParseNat resolution).getD 0)
      with hTH
    set VOD : List UrlExtractor.VideoFormat := formats.filter (fun f =>
      f.is_video_only && f.url != "" && f.is_direct_download &&
        pyTruthyNat f.height) with hVOD
    set AOD : List UrlExtractor.VideoFormat := formats.filter (fun f =>
      f.is_audio_only && f.url != "" && f.is_direct_download) with hAOD
    set COD : List UrlExtractor.VideoFormat := formats.filter (fun f =>
      f.has_both && f.url != "" && f.is_direct_download &&
        pyTruthyNat f.height) with hCOD
    have haodmem : ∀ f ∈ formats, f.is_audio_only = true → f.url ≠ "" →
        f.is_direct_download = true → f ∈ AOD := by
      intro f hf h1 h2 h3
      rw [hAOD]
      exact List.mem_filter.mpr ⟨hf, by simp [h1, h2, h3]⟩
    have hsepcase : ∀ hL : VOD ≠ [],
        ((UrlExtractor.separateStreams prefer_mp4 resolution TH VOD AOD
            INIT).needs_merge = true →
          ∃ v : UrlExtractor.VideoFormat,
            (UrlExtractor.separateStreams prefer_mp4 resolution TH VOD AOD
              INIT).video_url = some v.url) ∧
        ((UrlExtractor.separateStreams prefer_mp4 resolution TH VOD AOD
            INIT).needs_merge = true →
          (∃ f ∈ formats, f.is_audio_only = true ∧ f.url ≠ "" ∧
            f.is_direct_download = true) →
          ∃ a : UrlExtractor.VideoFormat,
            (UrlExtractor.separateStreams prefer_mp4 resolution TH VOD AOD
              INIT).audio_url = some a.url) ∧
        ((UrlExtractor.separateStreams prefer_mp4 resolution TH VOD AOD
            INIT).needs_merge = false →
          ∀ u, (UrlExtractor.separateStreams prefer_mp4 resolution TH VOD AOD
            INIT).video_url = some u →
          ∃ f, (UrlExtractor.separateStreams prefer_mp4 resolution TH VOD AOD
            INIT).video_format = some f ∧ f.has_both = true ∧ f.url = u) := by
      intro hL
      obtain ⟨hm, ⟨v, hvsel, hvurl⟩, haud⟩ :=
        UrlExtractor.separateStreams_spec prefer_mp4 resolution TH VOD AOD INIT hL
      refine ⟨fun _ => ⟨v, hvurl⟩, fun _ hex => ?_, fun hfalse => ?_⟩
      · obtain ⟨f, hf, h1, h2, h3⟩ := hex
        exact haud (List.ne_nil_of_mem (haodmem f hf h1 h2 h3))
      · rw [hm] at hfalse
        simp at hfalse
    split
    case isTrue hsep =>
      exact hsepcase (by intro hl; rw [hl] at hsep; simp at hsep)
    case isFalse hsep =>
      split
      case isTrue hcod =>
        split
        case h_1 heq =>
          refine ⟨fun hm => ?_, fun hm _ => ?_, fun _ u hu2 => ?_⟩
          · rw [hINIT] at hm; simp at hm
          · rw [hINIT] at hm; simp at hm
          · rw [hINIT] at hu2; simp at hu2
        case h_2 best heq =>
          refine ⟨fun hm => ?_, fun hm _ => ?_, fun _ u hu2 => ?_⟩
          · simp at hm
          · simp at hm
          · replace hu2 : some best.url = some u := hu2
            cases hu2
            refine ⟨best, rfl, ?_, rfl⟩
            have hmem := UrlExtractor.selectVideo_mem _ _ _ _ _ heq
            rw [hCOD] at hmem
            have hp := List.of_mem_filter hmem
            simp only [Bool.and_eq_true] at hp
            exact hp.1.1.1
      case isFalse hcod =>
        split
        case isTrue hvod =>
          exact hsepcase (ne_nil_of_not_isEmpty hvod)
        case isFalse hvod =>
          have hspec := UrlExtractor.lastResort_spec prefer_mp4 resolution TH
            formats INIT (by rw [hINIT]) (by rw [hINIT])
          refine ⟨hspec.1, fun hm hex => ?_, hspec.2.2⟩
          obtain ⟨f, hf, h1, h2, h3⟩ := hex
          exact hspec.2.1 hm ⟨f, hf, h1, h2⟩

/-- An M4A audio-only direct-download rendition at bitrate 160. -/
def aOnly160 : UrlExtractor.VideoFormat :=
  { format_id := "140", url := "https://googlevideo.com/a1080", ext := "m4a",
    height := none, vcodec := some "none", acodec := some "mp4a.40.2",
    tbr := some 160, protocol := "https" }

/-- Witness for C4: a separate-streams result on a concrete rendition set with
a direct audio-only rendition carries an audio URL. -/
theorem merge_flag_amended_wit :
    ∃ a : UrlExtractor.VideoFormat,
      (UrlExtractor.get_download_urls [vOnly1080, aOnly160] "720" true).audio_url
        = some a.url :=
  (merge_flag_amended [vOnly1080, aOnly160] "720" true).2.1 (by decide)
    ⟨aOnly160, by decide, by decide, by decide, by decide⟩

-- C8 -------------------------------------------------------------------

namespace UrlExtractor

theorem audio_if_chain (pm : Bool) (ao da : List VideoFormat) :
    (if !da.isEmpty then selectAudio pm da
     else if !ao.isEmpty then pymax tbrGt ao else none)
    = pymax tbrGt
        (if !da.isEmpty then
          (if pm then
            (if !(da.filter (fun f => f.ext == "m4a")).isEmpty then
              da.filter (fun f => f.ext == "m4a") else da)
          else da)
        else ao) := by
  by_cases hda : da.isEmpty
  · have h1 : (!da.isEmpty) = false := by simp [hda]
    by_cases hao : ao.isEmpty
    · simp [h1, List.isEmpty_iff.mp hao, pymax]
    · have h2 : (!ao.isEmpty) = true := by simp [hao]
      simp [h1, h2]
  · have h1 : (!da.isEmpty) = true := by simp [hda]
    simp only [h1, if_true, selectAudio]
    by_cases hpm : pm = true
    · by_cases hm : (da.filter (fun f => f.ext == "m4a")).isEmpty
      · have h2 : (!(da.filter (fun f => f.ext == "m4a")).isEmpty) = false := by
          simp [hm]
        simp [hpm, h2]
      · have h2 : (!(da.filter (fun f => f.ext == "m4a")).isEmpty) = true := by
          simp [hm]
        simp [hpm, h2]
    · have hpmf : pm = false := by
        cases pm
        · rfl
        · exact absurd rfl hpm
      simp [hpmf]

theorem audioTarget_pool (pm : Bool) (formats : List VideoFormat)
    (init : DownloadUrls) (hai : init.audio_format = none)
    (hau : init.audio_url = none) :
    (audioTarget pm formats init).audio_format
      = pymax tbrGt (preferredAudioPool formats pm) ∧
    (audioTarget pm formats init).audio_url
      = Option.map (fun a => a.url) (pymax tbrGt (preferredAudioPool formats pm)) := by
  have hpp : preferredAudioPool formats pm =
      (if !((formats.filter (fun f => f.is_audio_only && f.url != "")).filter
          (fun f => f.is_direct_download)).isEmpty then
        (if pm then
          (if !(((formats.filter (fun f => f.is_audio_only && f.url != "")).filter
              (fun f => f.is_direct_download)).filter
                (fun f => f.ext == "m4a")).isEmpty then
            ((formats.filter (fun f => f.is_audio_only && f.url != "")).filter
              (fun f => f.is_direct_download)).filter (fun f => f.ext == "m4a")
          else (formats.filter (fun f => f.is_audio_only && f.url != "")).filter
            (fun f => f.is_direct_download))
        else (formats.filter (fun f => f.is_audio_only && f.url != "")).filter
          (fun f => f.is_direct_download))
      else formats.filter (fun f => f.is_audio_only && f.url != "")) := rfl
  simp only [audioTarget]
  rw [audio_if_chain, ← hpp]
  cases hp : pymax tbrGt (preferredAudioPool formats pm) with
  | none => exact ⟨hai, hau⟩
  | some a => exact ⟨rfl, rfl⟩

end UrlExtractor

/-- A direct-download M4A audio-only rendition at bitrate 128. -/
def audioM4a128 : UrlExtractor.VideoFormat :=
  { format_id := "140", url := "https://googlevideo.com/m4a128", ext := "m4a",
    height := none, vcodec := some "none", acodec := some "mp4a.40.2",
    tbr := some 128, protocol := "https" }

/-- A direct-download WEBM (Opus) audio-only rendition at bitrate 256. -/
def audioWebm256 : UrlExtractor.VideoFormat :=
  { format_id := "251", url := "https://googlevideo.com/webm256", ext := "webm",
    height := none, vcodec := some "none", acodec := some "opus",
    tbr := some 256, protocol := "https" }

/-- A direct-download M4A audio-only rendition at bitrate 256. -/
def audioM4a256 : UrlExtractor.VideoFormat :=
  { format_id := "141", url := "https://googlevideo.com/m4a256", ext := "m4a",
    height := none, vcodec := some "none", acodec := some "mp4a.40.2",
    tbr := some 256, protocol := "https" }

/-- C8 counterexample: with a 128-bitrate direct M4A rendition and a
256-bitrate direct WEBM rendition, the "audio" target selects the 128 M4A one
(the default M4A preference overrides raw bitrate), so the selection is not
the highest-bitrate audio-only rendition with a resolvable URL. -/
theorem cex_audio_not_highest_bitrate :
    (UrlExtractor.get_download_urls [audioM4a128, audioWebm256] "audio"
      true).audio_url = some "https://googlevideo.com/m4a128" ∧
    audioM4a128.tbr.getD 0 < audioWebm256.tbr.getD 0 ∧
    audioWebm256.is_audio_only = true ∧
    audioWebm256.url ≠ "" ∧
    audioWebm256.is_direct_download = true := by decide

/-- C8 amended: for the target "audio", format selection returns the
highest-bitrate rendition of the most-preferred non-empty audio pool — direct
M4A renditions first (under the default MP4 preference), then direct audio,
then any audio-only rendition with a URL; in particular, for two direct M4A
audio-only renditions with bitrates 128 and 256 it selects the one with
bitrate 256. -/
theorem audio_selection_amended (formats : List UrlExtractor.VideoFormat)
    (pm : Bool) :
    (∀ x, (UrlExtractor.get_download_urls formats "audio" pm).audio_format
        = some x →
      x ∈ UrlExtractor.preferredAudioPool formats pm ∧
      (UrlExtractor.get_download_urls formats "audio" pm).audio_url = some x.url ∧
      ∀ y ∈ UrlExtractor.preferredAudioPool formats pm,
        y.tbr.getD 0 ≤ x.tbr.getD 0) ∧
    (UrlExtractor.get_download_urls [audioM4a128, audioM4a256] "audio"
      true).audio_url = some "https://googlevideo.com/m4a256" := by
  constructor
  · have hform : UrlExtractor.get_download_urls formats "audio" pm =
        UrlExtractor.audioTarget pm formats
          { video_url := none, audio_url := none, video_format := none,
            audio_format := none, needs_merge := false, resolution := "audio" } := by
      simp [UrlExtractor.get_download_urls]
    have hpool := UrlExtractor.audioTarget_pool pm formats
      { video_url := none, audio_url := none, video_format := none,
        audio_format := none, needs_merge := false, resolution := "audio" }
      rfl rfl
    intro x hx
    rw [hform] at hx ⊢
    rw [hpool.1] at hx
    refine ⟨pymax_mem _ _ _ hx, ?_, UrlExtractor.pymax_tbr_le _ _ hx⟩
    rw [hpool.2, hx]
    rfl
  · decide

/-- Witness for C8 at the concrete mixed-container rendition set. -/
theorem audio_selection_amended_wit :
    (UrlExtractor.get_download_urls [audioM4a128, audioWebm256] "audio"
      true).audio_url = some audioM4a128.url :=
  ((audio_selection_amended [audioM4a128, audioWebm256] true).1 audioM4a128
    (by decide)).2.1

-- C7 -------------------------------------------------------------------

/-- A combined (video+audio) 480p direct-download rendition. -/
def combined480 : UrlExtractor.VideoFormat :=
  { format_id := "18", url := "https://googlevideo.com/u480", ext := "mp4",
    height := some 480, vcodec := some "avc1.42001E", acodec := some "mp4a.40.2",
    tbr := some 1000, protocol := "https" }

/-- A 1080p video-only rendition offered only over HLS streaming
(`protocol` is not "https", so `is_direct_download` is false). -/
def vOnly1080hls : UrlExtractor.VideoFormat :=
  { format_id := "hls-1080", url := "https://manifest.googlevideo.com/v1080.m3u8",
    ext := "mp4", height := some 1080, vcodec := some "avc1.640028",
    acodec := some "none", tbr := some 2500, protocol := "m3u8_native" }

/-- An audio-only rendition offered only over HLS streaming. -/
def aOnly160hls : UrlExtractor.VideoFormat :=
  { format_id := "hls-audio", url := "https://manifest.googlevideo.com/a160.m3u8",
    ext := "m4a", height := none, vcodec := some "none",
    acodec := some "mp4a.40.2", tbr := some 160, protocol := "m3u8" }

/-- C7 counterexample: a rendition set containing a combined 480p rendition
and separate 1080p video-only and audio-only renditions — but with the 1080p
pair streaming-only — makes format selection at target 720 return the 480p
combined rendition with `needs_merge = false`, so the claim's "never returns
the 480p combined rendition" fails on such a set. -/
theorem cex_separate_streams_streaming :
    (UrlExtractor.get_download_urls [combined480, vOnly1080hls, aOnly160hls]
      "720" true).video_url = some "https://googlevideo.com/u480" ∧
    (UrlExtractor.get_download_urls [combined480, vOnly1080hls, aOnly160hls]
      "720" true).video_format = some combined480 ∧
    (UrlExtractor.get_download_urls [combined480, vOnly1080hls, aOnly160hls]
      "720" true).needs_merge = false ∧
    vOnly1080hls.is_video_only = true ∧ vOnly1080hls.height = some 1080 ∧
    aOnly160hls.is_audio_only = true ∧
    combined480.has_both = true ∧ combined480.height = some 480 := by decide

namespace UrlExtractor

theorem separateStreams_full (prefer_mp4 : Bool) (resolution : String)
    (target : Nat) (vod aod : List VideoFormat) (init : DownloadUrls)
    (hvod : vod ≠ []) (haod : aod ≠ []) :
    ∃ v a, selectVideo prefer_mp4 resolution target vod = some v ∧
      selectAudio prefer_mp4 aod = some a ∧
      separateStreams prefer_mp4 resolution target vod aod init =
        { init with video_url := some v.url, video_format := some v,
                    audio_url := some a.url, audio_format := some a,
                    needs_merge := true } := by
  obtain ⟨v, hv⟩ := selectVideo_isSome prefer_mp4 resolution target vod hvod
  obtain ⟨a, ha⟩ := selectAudio_isSome prefer_mp4 aod haod
  have hnb : (!aod.isEmpty) = true := by
    cases hE : aod.isEmpty with
    | false => rfl
    | true => exact absurd (List.isEmpty_iff.mp hE) haod
  refine ⟨v, a, hv, ha, ?_⟩
  simp only [separateStreams, hv, hnb, if_true, ha]

end UrlExtractor

/-- C7 amended: for every rendition set containing a direct-download
video-only rendition (URL and height present) and a direct-download
audio-only rendition (URL present), every numeric target of at least 720 and
the target "best" make format selection return a video-only rendition of the
set plus an audio-only rendition of the set with `needs_merge = true`, and
the returned video rendition is never a combined one — in particular never a
combined 480p rendition. (When the separate pair is streaming-only, the
selection instead falls back to a direct combined rendition, as the
counterexample shows, so the direct-download qualification is required.) -/
theorem separate_streams_threshold (formats : List UrlExtractor.VideoFormat)
    (resolution : String) (prefer_mp4 : Bool)
    (hvid : ∃ v ∈ formats, v.is_video_only = true ∧ v.url ≠ "" ∧
      v.is_direct_download = true ∧ pyTruthyNat v.height = true)
    (haud : ∃ a ∈ formats, a.is_audio_only = true ∧ a.url ≠ "" ∧
      a.is_direct_download = true)
    (hres : resolution = "best" ∨
      ∃ n, pyParseNat resolution = some n ∧ 720 ≤ n) :
    (UrlExtractor.get_download_urls formats resolution prefer_mp4).needs_merge
      = true ∧
    (∃ v ∈ formats, v.is_video_only = true ∧
      (UrlExtractor.get_download_urls formats resolution
        prefer_mp4).video_format = some v ∧
      (UrlExtractor.get_download_urls formats resolution
        prefer_mp4).video_url = some v.url) ∧
    (∃ a ∈ formats, a.is_audio_only = true ∧
      (UrlExtractor.get_download_urls formats resolution
        prefer_mp4).audio_format = some a ∧
      (UrlExtractor.get_download_urls formats resolution
        prefer_mp4).audio_url = some a.url) ∧
    (∀ c : UrlExtractor.VideoFormat, c.has_both = true →
      (UrlExtractor.get_download_urls formats resolution
        prefer_mp4).video_format ≠ some c) := by
  have hA : (resolution == "audio") = false := by
    rcases hres with hbest | ⟨n, hp, hn⟩
    · subst hbest
      decide
    · cases hb : resolution == "audio" with
      | false => rfl
      | true =>
        have hresa : resolution = "audio" := by simpa using hb
        rw [hresa] at hp
        have hnone : pyParseNat "audio" = none := by decide
        rw [hnone] at hp
        exact absurd hp (by simp)
  obtain ⟨v0, hv0mem, hv0a, hv0b, hv0c, hv0d⟩ := hvid
  obtain ⟨a0, ha0mem, ha0a, ha0b, ha0c⟩ := haud
  set INIT : UrlExtractor.DownloadUrls :=
    { video_url := none, audio_url := none, video_format := none,
      audio_format := none, needs_merge := false, resolution := resolution }
    with hINIT
  set TH : Nat :=
    (if resolution == "best" then 9999 else (pyParseNat resolution).getD 0)
    with hTH
  set VOD : List UrlExtractor.VideoFormat := formats.filter (fun f =>
    f.is_video_only && f.url != "" && f.is_direct_download &&
      pyTruthyNat f.height) with hVOD
  set AOD : List UrlExtractor.VideoFormat := formats.filter (fun f =>
    f.is_audio_only && f.url != "" && f.is_direct_download) with hAOD
  have hvodmem : v0 ∈ VOD := by
    rw [hVOD]
    exact List.mem_filter.mpr ⟨hv0mem, by simp [hv0a, hv0b, hv0c, hv0d]⟩
  have haodmem : a0 ∈ AOD := by
    rw [hAOD]
    exact List.mem_filter.mpr ⟨ha0mem, by simp [ha0a, ha0b, ha0c]⟩
  have hvodne : VOD ≠ [] := List.ne_nil_of_mem hvodmem
  have haodne : AOD ≠ [] := List.ne_nil_of_mem haodmem
  have hvodb : (!VOD.isEmpty) = true := by
    cases hE : VOD.isEmpty with
    | false => rfl
    | true => exact absurd (List.isEmpty_iff.mp hE) hvodne
  have hform : UrlExtractor.get_download_urls formats resolution prefer_mp4
      = UrlExtractor.separateStreams prefer_mp4 resolution TH VOD AOD INIT := by
    simp only [UrlExtractor.get_download_urls, hA, Bool.false_eq_true, if_false]
    rw [if_pos]
    rcases hres with hbest | ⟨n, hp, hn⟩
    · subst hbest
      simp [hvodb]
    · have hB : (resolution == "best") = false := by
        cases hb : resolution == "best" with
        | false => rfl
        | true =>
          have hresb : resolution = "best" := by simpa using hb
          rw [hresb] at hp
          have hnone : pyParseNat "best" = none := by decide
          rw [hnone] at hp
          exact absurd hp (by simp)
      simp [hTH, hB, hp, hn, hvodb]
  obtain ⟨v, a, hsv, hsa, hfull⟩ := UrlExtractor.separateStreams_full
    prefer_mp4 resolution TH VOD AOD INIT hvodne haodne
  have hvmem := UrlExtractor.selectVideo_mem _ _ _ _ _ hsv
  have hamem := UrlExtractor.selectAudio_mem _ _ _ hsa
  rw [hVOD] at hvmem
  rw [hAOD] at hamem
  have hvprops := List.of_mem_filter hvmem
  have haprops := List.of_mem_filter hamem
  simp only [Bool.and_eq_true] at hvprops haprops
  rw [hform, hfull]
  refine ⟨rfl, ⟨v, List.mem_of_mem_filter hvmem, hvprops.1.1.1, rfl, rfl⟩,
    ⟨a, List.mem_of_mem_filter hamem, haprops.1.1, rfl, rfl⟩, ?_⟩
  intro c hc hceq
  replace hceq : some v = some c := hceq
  have hvc : v = c := by injection hceq
  subst hvc
  have hvo : v.is_video_only = true := hvprops.1.1.1
  unfold UrlExtractor.VideoFormat.is_video_only at hvo
  unfold UrlExtractor.VideoFormat.has_both at hc
  cases haud2 : v.is_audio with
  | true =>
    rw [haud2] at hvo
    simp at hvo
  | false =>
    rw [haud2] at hc
    simp at hc

/-- Witness for C7 at the concrete scenario set (direct 480p combined plus
direct 1080p video-only and audio-only renditions) and target 720. -/
theorem separate_streams_threshold_wit :
    (UrlExtractor.get_download_urls [combined480, vOnly1080, aOnly160]
      "720" true).needs_merge = true ∧
    (UrlExtractor.get_download_urls [combined480, vOnly1080, aOnly160]
      "720" true).video_format ≠ some combined480 :=
  ⟨(separate_streams_threshold [combined480, vOnly1080, aOnly160] "720" true
      ⟨vOnly1080, by decide, by decide, by decide, by decide, by decide⟩
      ⟨aOnly160, by decide, by decide, by decide, by decide⟩
      (Or.inr ⟨720, by decide, by decide⟩)).1,
   (separate_streams_threshold [combined480, vOnly1080, aOnly160] "720" true
      ⟨vOnly1080, by decide, by decide, by decide, by decide, by decide⟩
      ⟨aOnly160, by decide, by decide, by decide, by decide⟩
      (Or.inr ⟨720, by decide, by decide⟩)).2.2.2 combined480 (by decide)⟩


-- Facts about the download loop, shared by C1 and C2.

namespace Downloader

theorem is_bot_append_left (pre m : String)
    (h : is_bot_detection_error m = true) :
    is_bot_detection_error (pre ++ m) = true := by
  obtain ⟨kw, hkw, hc⟩ := List.any_eq_true.mp h
  exact List.any_eq_true.mpr ⟨kw, hkw, strContains_lower_append pre m kw hc⟩

theorem wrapError_append (s : Nat) (proxy : Option String) (m : String) :
    ∃ pre, wrapError s proxy m = pre ++ m :=
  ⟨"Strategy " ++ toString s ++ " with proxy " ++ pyOr proxy "direct" ++
    " failed: ", rfl⟩

theorem tryProxy_cons_soft (attempt : Option String → Nat → Option String)
    (proxy : Option String) (s : Nat) (rest : List Nat) (st : LoopState)
    (e : String) (ha : attempt proxy s = some e)
    (hb : is_hard_block e = false) :
    tryProxy attempt proxy (s :: rest) st
      = tryProxy attempt proxy rest
          { st with trace := st.trace ++ [(proxy, s)],
                    errors := st.errors ++ [wrapError s proxy e] } := by
  simp only [tryProxy, ha, hb, Bool.false_eq_true, if_false]

theorem tryProxy_errors_mono (attempt : Option String → Nat → Option String)
    (proxy : Option String) (sts : List Nat) (st : LoopState) :
    ∃ t, (tryProxy attempt proxy sts st).1.errors = st.errors ++ t := by
  induction sts generalizing st with
  | nil => exact ⟨[], by simp [tryProxy]⟩
  | cons s rest ih =>
    cases ha : attempt proxy s with
    | none =>
      cases proxy with
      | some p => exact ⟨[], by simp [tryProxy, ha]⟩
      | none => exact ⟨[], by simp [tryProxy, ha]⟩
    | some e =>
      by_cases hb : is_hard_block e = true
      · cases proxy with
        | some p =>
          exact ⟨[wrapError s (some p) e], by simp [tryProxy, ha, hb]⟩
        | none =>
          exact ⟨[wrapError s none e], by simp [tryProxy, ha, hb]⟩
      · obtain ⟨t, ht⟩ := ih
          { st with trace := st.trace ++ [(proxy, s)],
                    errors := st.errors ++ [wrapError s proxy e] }
        refine ⟨wrapError s proxy e :: t, ?_⟩
        simp only [tryProxy, ha, hb, Bool.false_eq_true, if_false]
        simpa using ht
  
theorem tryProxy_all_fail (attempt : Option String → Nat → Option String)
    (proxy : Option String) (sts : List Nat) (st : LoopState)
    (h : ∀ s ∈ sts, attempt proxy s ≠ none) :
    (tryProxy attempt proxy sts st).2 = false := by
  induction sts generalizing st with
  | nil => rfl
  | cons s rest ih =>
    cases ha : attempt proxy s with
    | none => exact absurd ha (h s (List.mem_cons_self s rest))
    | some e =>
      by_cases hb : is_hard_block e = true
      · cases proxy with
        | some p => simp [tryProxy, ha, hb]
        | none => simp [tryProxy, ha, hb]
      · simp only [tryProxy, ha, hb, Bool.false_eq_true, if_false]
        exact ih _ (fun s2 hs2 => h s2 (List.mem_cons_of_mem _ hs2))

theorem runLoop_errors_mono (attempt : Option String → Nat → Option String)
    (ps : List (Option String)) (st : LoopState) :
    ∃ t, (runLoop attempt ps st).1.errors = st.errors ++ t := by
  induction ps generalizing st with
  | nil => exact ⟨[], by simp [runLoop]⟩
  | cons p rest ih =>
    obtain ⟨t1, ht1⟩ := tryProxy_errors_mono attempt p strategies st
    simp only [runLoop]
    by_cases h2 : (tryProxy attempt p strategies st).2 = true
    · rw [if_pos h2]
      exact ⟨t1, ht1⟩
    · rw [if_neg h2]
      obtain ⟨t2, ht2⟩ := ih (tryProxy attempt p strategies st).1
      exact ⟨t1 ++ t2, by rw [ht2, ht1, List.append_assoc]⟩

theorem runLoop_all_fail (attempt : Option String → Nat → Option String)
    (ps : List (Option String)) (st : LoopState)
    (h : ∀ p s, attempt p s ≠ none) :
    (runLoop attempt ps st).2 = false := by
  induction ps generalizing st with
  | nil => rfl
  | cons p rest ih =>
    have h1 := tryProxy_all_fail attempt p strategies st (fun s _ => h p s)
    simp only [runLoop]
    rw [if_neg (by rw [h1]; simp)]
    exact ih _

theorem runLoop_first_error (attempt : Option String → Nat → Option String)
    (p0 : Option String) (rest : List (Option String)) (st : LoopState)
    (m : String) (ham : attempt p0 1 = some m)
    (hfail : ∀ p s, attempt p s ≠ none) :
    ∃ t, (runLoop attempt (p0 :: rest) st).1.errors
      = st.errors ++ wrapError 1 p0 m :: t := by
  have hstep : ∃ t1, (tryProxy attempt p0 strategies st).1.errors
      = st.errors ++ wrapError 1 p0 m :: t1 := by
    by_cases hb : is_hard_block m = true
    · cases hp : p0 with
      | some p => exact ⟨[], by simp [strategies, tryProxy, hp ▸ ham, hb]⟩
      | none => exact ⟨[], by simp [strategies, tryProxy, hp ▸ ham, hb]⟩
    · have hbf : is_hard_block m = false := by
        cases hh : is_hard_block m
        · rfl
        · exact absurd hh hb
      obtain ⟨t1, ht1⟩ := tryProxy_errors_mono attempt p0 [2, 3, 4]
        { st with trace := st.trace ++ [(p0, 1)],
                  errors := st.errors ++ [wrapError 1 p0 m] }
      refine ⟨t1, ?_⟩
      show (tryProxy attempt p0 (1 :: [2, 3, 4]) st).1.errors = _
      rw [tryProxy_cons_soft attempt p0 1 [2, 3, 4] st m ham hbf, ht1]
      simp
  obtain ⟨t1, ht1⟩ := hstep
  have h2 : (tryProxy attempt p0 strategies st).2 = false :=
    tryProxy_all_fail attempt p0 strategies st (fun s _ => hfail p0 s)
  simp only [runLoop]
  rw [if_neg (by rw [h2]; simp)]
  obtain ⟨t2, ht2⟩ := runLoop_errors_mono attempt rest
    (tryProxy attempt p0 strategies st).1
  refine ⟨t1 ++ t2, ?_⟩
  rw [ht2, ht1]
  simp

end Downloader

-- C1 -------------------------------------------------------------------

/-- The C1 counterexample script: proxy "p1" fails every strategy with
"429 too many requests"; every other proxy succeeds at once. -/
def cex429Attempt : Option String → Nat → Option String :=
  fun p _ => if p == some "p1" then some "429 too many requests" else none

/-- The C1 counterexample proxy pool. -/
def cex429Proxies : List (Option String) := [some "p1", some "p2", some "p3"]

/-- C1 counterexample: with 3 proxies where proxy 1 fails every strategy with
"429 too many requests", the loop tries all four strategies on proxy 1 and
does not mark it failed before moving to proxy 2 — the message matches none
of the inline hard-block keywords, so strategies are not abandoned. -/
theorem cex_scenario_d :
    (Downloader.runLoop cex429Attempt cex429Proxies
      { failed_proxies := [], errors := [], trace := [] }).1.failed_proxies
      = [] ∧
    (Downloader.runLoop cex429Attempt cex429Proxies
      { failed_proxies := [], errors := [], trace := [] }).1.trace
      = [(some "p1", 1), (some "p1", 2), (some "p1", 3), (some "p1", 4),
         (some "p2", 1)] ∧
    Downloader.is_hard_block "429 too many requests" = false := by decide

/-- C1 amended: an attempt failure whose message the inline keyword check
classifies as a hard IP block (containing "403", "blocked", "bot", "captcha"
or "rate limit") makes the loop mark the current proxy failed and abandon its
remaining strategies, advancing to the next proxy; but the message
"429 too many requests" is not so classified, so in the 3-proxy scenario all
four strategies are tried on proxy 1, it is never marked failed, and only
then does the loop move to proxy 2. -/
theorem hard_block_abandons_proxy
    (attempt : Option String → Nat → Option String) (p : String) (s : Nat)
    (rest : List Nat) (st : Downloader.LoopState) (e : String)
    (ha : attempt (some p) s = some e)
    (hb : Downloader.is_hard_block e = true) :
    (Downloader.tryProxy attempt (some p) (s :: rest) st
      = ({ failed_proxies := st.failed_proxies.insert p,
           errors := st.errors ++ [Downloader.wrapError s (some p) e],
           trace := st.trace ++ [(some p, s)] }, false)) ∧
    ((Downloader.runLoop cex429Attempt cex429Proxies
        { failed_proxies := [], errors := [], trace := [] }).1.failed_proxies
        = [] ∧
      (Downloader.runLoop cex429Attempt cex429Proxies
        { failed_proxies := [], errors := [], trace := [] }).1.trace
        = [(some "p1", 1), (some "p1", 2), (some "p1", 3), (some "p1", 4),
           (some "p2", 1)]) := by
  constructor
  · simp [Downloader.tryProxy, ha, hb]
  · exact ⟨by decide, by decide⟩

/-- Witness for C1: a 403 failure on the first strategy makes the proxy
failed, records exactly one attempt on it, and ends its strategy loop. -/
theorem hard_block_abandons_proxy_wit :
    Downloader.tryProxy (fun _ _ => some "HTTP Error 403: Forbidden")
      (some "p1") Downloader.strategies
      { failed_proxies := [], errors := [], trace := [] }
      = ({ failed_proxies := ["p1"],
           errors := [Downloader.wrapError 1 (some "p1")
             "HTTP Error 403: Forbidden"],
           trace := [(some "p1", 1)] }, false) :=
  (hard_block_abandons_proxy (fun _ _ => some "HTTP Error 403: Forbidden")
    "p1" 1 [2, 3, 4] { failed_proxies := [], errors := [], trace := [] }
    "HTTP Error 403: Forbidden" rfl (by decide)).1

-- C2 -------------------------------------------------------------------

/-- C2: one `download` call escalates to the credential provider at most
once, and a scripted run in which every proxy-and-strategy attempt fails
with a bot-detection message (with the provider configured) performs exactly
one refresh call. -/
theorem escalation_bound (attempt : Option String → Nat → Option String)
    (configured refreshOk : Bool) (retryAttempt : Option String → Nat → Bool)
    (proxies : List (Option String)) :
    (Downloader.download attempt configured refreshOk retryAttempt
      proxies).refreshCalls ≤ 1 ∧
    (proxies ≠ [] → configured = true →
      (∀ p s, ∃ m, attempt p s = some m ∧
        Downloader.is_bot_detection_error m = true) →
      (Downloader.download attempt configured refreshOk retryAttempt
        proxies).refreshCalls = 1) := by
  constructor
  · simp only [Downloader.download]
    split
    · simp
    · split
      · split
        · split
          · simp
          · simp
        · simp
      · simp
  · intro hne hconf hall
    cases hps : proxies with
    | nil => exact absurd hps hne
    | cons p0 rest =>
      obtain ⟨m, ham, hbm⟩ := hall p0 1
      have hfail : ∀ p s, attempt p s ≠ none := by
        intro p s hnone
        obtain ⟨m2, h2, -⟩ := hall p s
        rw [h2] at hnone
        exact absurd hnone (by simp)
      have hr2 : (Downloader.runLoop attempt (p0 :: rest)
          { failed_proxies := [], errors := [], trace := [] }).2 = false :=
        Downloader.runLoop_all_fail attempt _ _ hfail
      obtain ⟨t, ht⟩ := Downloader.runLoop_first_error attempt p0 rest
        { failed_proxies := [], errors := [], trace := [] } m ham hfail
      have hbot : (Downloader.runLoop attempt (p0 :: rest)
          { failed_proxies := [], errors := [], trace := [] }).1.errors.any
            Downloader.is_bot_detection_error = true := by
        rw [ht]
        refine List.any_eq_true.mpr ⟨Downloader.wrapError 1 p0 m, by simp, ?_⟩
        obtain ⟨pre, hpre⟩ := Downloader.wrapError_append 1 p0 m
        rw [hpre]
        exact Downloader.is_bot_append_left pre m hbm
      simp only [Downloader.download, hps, hr2, Bool.false_eq_true, if_false,
        hbot, if_true, hconf]
      cases refreshOk <;> simp

/-- Witness for C2: the scripted all-bot-detection run on one proxy with a
configured provider performs exactly one refresh call. -/
theorem escalation_bound_wit :
    (Downloader.download (fun _ _ => some "Sign in to confirm you are not a bot")
      true true (fun _ _ => true) [some "p1"]).refreshCalls = 1 :=
  (escalation_bound (fun _ _ => some "Sign in to confirm you are not a bot")
    true true (fun _ _ => true) [some "p1"]).2 (by simp) rfl
    (fun _ _ => ⟨"Sign in to confirm you are not a bot", rfl, by decide⟩)
